import Mathlib

/-
Verification of the nebula ingestion core against its specification.

Shallow embedding conventions:
- `size_t` / `int64_t` machine integers are modelled as `Nat` holding the
  64-bit value; arithmetic that can overflow in C++ (the synthetic test
  loader's window computation) goes through `add64` / `mul64` / `sub64`
  which reduce modulo 2^64.  Time values flow through the pipeline without
  arithmetic, so they are carried as plain `Nat`.
- External collaborators (the readers, the object store, the process clock,
  `Evidence::time`, `TestTable`) are parameters gathered in `IngestEnv` /
  `IngestConfig`.  The row stream a reader would produce from the fetched
  file is `IngestEnv.readerRows`.
- The process-wide `BlockManager` and the `FlatBuffer` store are not under
  the sources provided; they are modelled from the specification (see the
  doc comments starting with "Modelled from the spec:").
- Fallible stages return `Option` / empty results exactly where the C++
  returns early with `{}`.
-/

/-- Largest `size_t` value, the initial `range.first` of the batch loop. -/
def SIZE_MAX : Nat := 2 ^ 64 - 1

/-- `size_t` addition (wraps modulo 2^64). -/
def add64 (a b : Nat) : Nat := (a + b) % 2 ^ 64

/-- `size_t` multiplication (wraps modulo 2^64). -/
def mul64 (a b : Nat) : Nat := (a * b) % 2 ^ 64

/-- `size_t` subtraction (wraps modulo 2^64); arguments are 64-bit values. -/
def sub64 (a b : Nat) : Nat := (a + 2 ^ 64 - b % 2 ^ 64) % 2 ^ 64

/-- `Evidence::HOUR_SECONDS`. -/
def HOUR_SECONDS : Nat := 3600

/-- `Table::TIME_COLUMN`, the reserved time column name. -/
def TIME_COLUMN : String := "_time_"

/-- `meta/TableSpec.h`: data sources. -/
inductive DataSource
  | Custom
  | S3
  | LOCAL
  | KAFKA
  | GSHEET
deriving DecidableEq, Repr

/-- `DataSourceUtils::isFileSystem` from `meta/TableSpec.h`. -/
def DataSourceUtils.isFileSystem (ds : DataSource) : Bool :=
  ds == DataSource.S3 || ds == DataSource.LOCAL

/-- `meta/TableSpec.h`: type of time source filling the time column. -/
inductive TimeType
  | STATIC
  | CURRENT
  | COLUMN
  | MACRO
  | PROVIDED
deriving DecidableEq, Repr

/-- `meta/TableSpec.h`: `TimeSpec`. -/
structure TimeSpec where
  type : TimeType
  unixTimeValue : Nat
  colName : String
  pattern : String

/-- `meta/TableSpec.h`: `TableSpec` (fields the ingestion core reads;
`serde`, `columnProps`, `accessSpec`, `bucketInfo` and `settings` are
opaque to every embedded operation and are omitted). -/
structure TableSpec where
  name : String
  max_mb : Nat
  max_hr : Nat
  schema : String
  source : DataSource
  loader : String
  location : String
  backup : String
  format : String
  timeSpec : TimeSpec

/-- Spec lifecycle states (`SpecState` in `ingest/IngestSpec.h`). -/
inductive SpecState
  | NEW
  | PROCESSING
  | READY
  | FAILED
deriving DecidableEq, Repr

/-- `ingest/IngestSpec.h`: the unit of ingestion work. -/
structure IngestSpec where
  table : TableSpec
  version : String
  path : String
  domain : String
  size : Nat
  state : SpecState
  mdate : Nat

/-- Spec identity `"{table.name}@{path}@{size}"`; pinned by
`TestIngestion.cpp`: `EXPECT_EQ(spec.id(), "test@nebula/v1.x@10")`. -/
def IngestSpec.id (s : IngestSpec) : String :=
  s.table.name ++ "@" ++ s.path ++ "@" ++ toString s.size

/-- An input row (`nebula::surface::RowData`).  Only the accessors the
ingestion core exercises are modelled; the remaining typed readers of the
C++ interface delegate identically in `RowWrapperWithTime` and never feed
back into the pipeline.  `readLong` carries the 64-bit value as `Nat`. -/
structure RowData where
  readLong : String → Nat
  readString : String → String
  isNull : String → Bool

/-- `RowWrapperWithTime` from `ingest/IngestSpec.cpp`: wraps a row,
intercepting `readLong`/`isNull` on the reserved time column and
delegating everything else. -/
def RowWrapperWithTime (timeFunc : RowData → Nat) (row : RowData) : RowData where
  readLong := fun field => if field = TIME_COLUMN then timeFunc row else row.readLong field
  readString := row.readString
  isNull := fun field => if field = TIME_COLUMN then false else row.isNull field

/-- `meta/Table.h` `BlockSignature`: `(table, seq, time range, spec id)`. -/
structure BlockSignature where
  tableName : String
  blockSeq : Nat
  timeMin : Nat
  timeMax : Nat
  specId : String
deriving DecidableEq, Repr

/-- `execution/io/BatchBlock`: a signature plus the batch holding its rows.
Rows are stored as the wrapped `RowData` the pipeline appended. -/
structure BatchBlock where
  signature : BlockSignature
  batch : List RowData

/-- Modelled from the spec: the process-wide BlockManager (§4.6) is a
registry of installed blocks; its implementation is not under the sources
provided. -/
abbrev BlockManager := List BatchBlock

/-- Modelled from the spec: `BlockManager::add` installs each block. -/
def BlockManager.add (bm : BlockManager) (blocks : List BatchBlock) : BlockManager :=
  bm ++ blocks

/-- Modelled from the spec: `BlockManager::removeSameSpec` removes every
installed block whose `(table_name, spec_id)` pair equals the signature's. -/
def BlockManager.removeSameSpec (bm : BlockManager) (sig : BlockSignature) : BlockManager :=
  bm.filter fun b =>
    !(b.signature.tableName == sig.tableName && b.signature.specId == sig.specId)

/-- The installed blocks sharing a given `(table_name, spec_id)` pair
("same-spec" blocks, spec §3). -/
def sameSpecBlocks (bm : BlockManager) (name specId : String) : List BatchBlock :=
  bm.filter fun b =>
    b.signature.tableName == name && b.signature.specId == specId

/-- Process-scoped configuration: the two gflags of `IngestSpec.cpp`, the
hardware parallelism, and the external `TestTable` name. -/
structure IngestConfig where
  testLoaderName : String
  blockMaxRows : Nat
  hardwareConcurrency : Nat
  testTableName : String

/-- External collaborators of one `work()` run: the process clock
(`Evidence::unix_timestamp`), the time-pattern parser (`Evidence::time`),
the row stream the selected reader yields over the fetched file, and the
temp file name `fs->copy` hands back. -/
structure IngestEnv where
  clock : Nat
  parseTime : String → String → Nat
  readerRows : List RowData
  tmpFile : String

/-- The time-function switch on `TimeSpec.type` at the head of
`IngestSpec::ingest`; `none` models the `default:` branch that returns
`{}` for an unsupported time type (only `PROVIDED` reaches it). -/
def makeTimeFunc (ts : TimeSpec) (mdate : Nat) (env : IngestEnv) : Option (RowData → Nat) :=
  match ts.type with
  | TimeType.STATIC => some fun _ => ts.unixTimeValue
  | TimeType.CURRENT => some fun _ => env.clock
  | TimeType.COLUMN => some fun r => env.parseTime (r.readString ts.colName) ts.pattern
  | TimeType.MACRO => if ts.pattern = "date" then (some fun _ => mdate) else (some fun _ => 0)
  | TimeType.PROVIDED => none

/-- The mutable state of the batch loop in `IngestSpec::ingest`. -/
structure LoopState where
  batch : List RowData
  range : Nat × Nat
  blockId : Nat
  blocks : List BatchBlock

/-- The `makeBlock` lambda of `IngestSpec::ingest`. -/
def mkBlock (name specId : String) (bid : Nat) (range : Nat × Nat)
    (batch : List RowData) : BatchBlock :=
  { signature :=
      { tableName := name, blockSeq := bid, timeMin := range.1,
        timeMax := range.2, specId := specId },
    batch := batch }

/-- Initial loop state: empty batch, `range = (SIZE_MAX, 0)`, `blockId = 0`. -/
def initLoopState : LoopState :=
  { batch := [], range := (SIZE_MAX, 0), blockId := 0, blocks := [] }

/-- One iteration of the batch loop: flush the batch if it is full, then
bind the wrapper to the row, fold the row's time into the running range
and append the row. -/
def ingestStep (bRows : Nat) (timeFunc : RowData → Nat) (name specId : String)
    (st : LoopState) (row : RowData) : LoopState :=
  let st1 :=
    if bRows ≤ st.batch.length then
      { batch := [], range := (SIZE_MAX, 0), blockId := st.blockId + 1,
        blocks := st.blocks ++ [mkBlock name specId st.blockId st.range st.batch] }
    else st
  let rw := RowWrapperWithTime timeFunc row
  let t := rw.readLong TIME_COLUMN
  { st1 with
    range := (if t < st1.range.1 then t else st1.range.1,
              if t > st1.range.2 then t else st1.range.2),
    batch := st1.batch ++ [rw] }

/-- The `while (source->hasNext())` loop of `IngestSpec::ingest`. -/
def ingestLoop (bRows : Nat) (timeFunc : RowData → Nat) (name specId : String) :
    LoopState → List RowData → LoopState
  | st, [] => st
  | st, row :: rest =>
      ingestLoop bRows timeFunc name specId (ingestStep bRows timeFunc name specId st row) rest

/-- After the loop of `IngestSpec::ingest`: emit a final block when the
last batch holds at least one row. -/
def finishLoop (st : LoopState) (name specId : String) : List BatchBlock :=
  if 0 < st.batch.length then
    st.blocks ++ [mkBlock name specId st.blockId st.range st.batch]
  else st.blocks

/-- `IngestSpec::ingest`: derive the time function (empty result on an
unsupported time type), select the reader by format (empty result on an
unsupported format), run the batch loop, and emit a final block when the
last batch is non-empty.  Table enrollment is an external no-op side
effect and is not part of the returned value. -/
def IngestSpec.ingest (spec : IngestSpec) (cfg : IngestConfig) (env : IngestEnv) :
    List BatchBlock :=
  match makeTimeFunc spec.table.timeSpec spec.mdate env with
  | none => []
  | some timeFunc =>
    if spec.table.format = "csv" ∨ spec.table.format = "parquet" then
      finishLoop (ingestLoop cfg.blockMaxRows timeFunc spec.table.name spec.id
        initLoopState env.readerRows) spec.table.name spec.id
    else []

/-- Record of the object-store interactions of one `IngestSpec::load`. -/
structure FetchTrace where
  copiedKeys : List String
  unlinked : List String

/-- `IngestSpec::load`: copy from S3 (the key passed to `fs->copy` is
`id_`), ingest the temp file, then unlink the temp file unconditionally. -/
def IngestSpec.load (spec : IngestSpec) (cfg : IngestConfig) (env : IngestEnv) :
    List BatchBlock × FetchTrace :=
  let tmpFile := env.tmpFile
  let blocks := spec.ingest cfg env
  (blocks, { copiedKeys := [spec.id], unlinked := [tmpFile] })

/-- `IngestSpec::loadSwap`: on an S3 source, load, remove same-spec blocks
for each produced block, install the new blocks and return true; on any
other source return false. -/
def IngestSpec.loadSwap (spec : IngestSpec) (cfg : IngestConfig) (env : IngestEnv)
    (bm : BlockManager) : Bool × BlockManager :=
  if spec.table.source = DataSource.S3 then
    let blocks := (spec.load cfg env).1
    let bm1 := blocks.foldl (fun m b => m.removeSameSpec b.signature) bm
    (true, bm1.add blocks)
  else
    (false, bm)

/-- `IngestSpec::loadRoll`: on an S3 source, load and install additively
and return true; on any other source return false. -/
def IngestSpec.loadRoll (spec : IngestSpec) (cfg : IngestConfig) (env : IngestEnv)
    (bm : BlockManager) : Bool × BlockManager :=
  if spec.table.source = DataSource.S3 then
    let blocks := (spec.load cfg env).1
    (true, bm.add blocks)
  else
    (false, bm)

/-- The loop body of `loadNebulaTestData` with explicit fuel.  The C++
`for` loop increments `i` both in the signature expression (`i++`) and in
the loop header, so `i` advances by 2 per iteration; `fuel = numBlocks`
iterations always suffice to reach `i ≥ numBlocks`. -/
def testLoaderLoop (name spec : String) (start window numBlocks : Nat) :
    Nat → Nat → BlockManager → BlockManager
  | 0, _, bm => bm
  | fuel + 1, i, bm =>
      if i < numBlocks then
        let first := add64 start (mul64 i window)
        testLoaderLoop name spec start window numBlocks
          fuel (i + 2)
          (bm.add [{ signature :=
            { tableName := name, blockSeq := i, timeMin := first,
              timeMax := add64 first window, specId := spec }, batch := [] }])
      else bm

/-- `loadNebulaTestData` from `ingest/IngestSpec.cpp`: plan
`hardware_concurrency` blocks over the window
`[unixTimeValue, unixTimeValue + 3600 * max_hr)` and add a synthetic test
block per loop iteration (`TestTable` supplies the table name; its
synthesized batch content is external and modelled as empty). -/
def loadNebulaTestData (table : TableSpec) (spec : String) (cfg : IngestConfig)
    (bm : BlockManager) : BlockManager :=
  let start := table.timeSpec.unixTimeValue
  let endTime := add64 start (mul64 HOUR_SECONDS table.max_hr)
  let numBlocks := cfg.hardwareConcurrency
  let window := sub64 endTime start / numBlocks
  testLoaderLoop cfg.testTableName spec start window numBlocks numBlocks 0 bm

/-- `IngestSpec::work`: dispatch on the loader string. -/
def IngestSpec.work (spec : IngestSpec) (cfg : IngestConfig) (env : IngestEnv)
    (bm : BlockManager) : Bool × BlockManager :=
  if spec.table.loader = cfg.testLoaderName then
    (true, loadNebulaTestData spec.table spec.id cfg bm)
  else if spec.table.loader = "Swap" then
    spec.loadSwap cfg env bm
  else if spec.table.loader = "Roll" then
    spec.loadRoll cfg env bm
  else
    (false, bm)

/-- The time values stored in a batch (each stored row's read of the
reserved time column — the value `Batch::add` writes for it). -/
def storedTimes (batch : List RowData) : List Nat :=
  batch.map fun r => r.readLong TIME_COLUMN

/-- Modelled from the spec: the FlatBuffer store (§4.4, §9 design note;
`memory/keyed/FlatBuffer` is not under the sources provided).  State is
the flat byte store plus the start offset of each row; `rowCount` is the
number of offsets. -/
structure FlatBuffer where
  bytes : List Nat
  offsets : List Nat

/-- Modelled from the spec: the empty FlatBuffer. -/
def FlatBuffer.empty : FlatBuffer := { bytes := [], offsets := [] }

/-- Modelled from the spec: `add` serializes the row against the schema,
appends its bytes and records the pre-add byte cursor as the row's start
offset. -/
def FlatBuffer.addRow {ρ : Type} (serialize : ρ → List Nat) (fb : FlatBuffer) (r : ρ) :
    FlatBuffer :=
  { bytes := fb.bytes ++ serialize r, offsets := fb.offsets ++ [fb.bytes.length] }

/-- Modelled from the spec: `rollback` discards the most recently added
row, truncating the byte store to that row's recorded start offset
(rollback on an empty buffer is a programmer error; the model leaves the
state unchanged there). -/
def FlatBuffer.rollback (fb : FlatBuffer) : FlatBuffer :=
  match fb.offsets.getLast? with
  | none => fb
  | some off => { bytes := fb.bytes.take off, offsets := fb.offsets.dropLast }

/-- Modelled from the spec: `getRows`. -/
def FlatBuffer.getRows (fb : FlatBuffer) : Nat := fb.offsets.length

/-- Modelled from the spec: the byte view of row `i` (its slice of the
byte store). -/
def FlatBuffer.rowBytes (fb : FlatBuffer) (i : Nat) : List Nat :=
  (fb.bytes.take (fb.offsets.getD (i + 1) fb.bytes.length)).drop (fb.offsets.getD i 0)

/-- Run a sequence of adds on the empty FlatBuffer. -/
def FlatBuffer.runAdds {ρ : Type} (serialize : ρ → List Nat) (rows : List ρ) : FlatBuffer :=
  rows.foldl (FlatBuffer.addRow serialize) FlatBuffer.empty

/- Concrete scenario data used by the witnesses and counterexamples. -/

/-- A row whose long reads all return `v` (strings empty, nothing null). -/
def constRow (v : Nat) : RowData :=
  { readLong := fun _ => v, readString := fun _ => "", isNull := fun _ => false }

/-- A STATIC TimeSpec with the given unix time value. -/
def staticTimeSpec (v : Nat) : TimeSpec :=
  { type := TimeType.STATIC, unixTimeValue := v, colName := "", pattern := "" }

/-- A TableSpec with the fields the pipeline reads filled in. -/
def mkTable (name loader fmt : String) (src : DataSource) (ts : TimeSpec)
    (maxHr : Nat) : TableSpec :=
  { name := name, max_mb := 1000, max_hr := maxHr, schema := "ROW<id:int>",
    source := src, loader := loader, location := "s3://test", backup := "s3://bak",
    format := fmt, timeSpec := ts }

/-- An IngestSpec in state NEW over the given table. -/
def mkIngestSpec (t : TableSpec) (path : String) (sz : Nat) (mdate : Nat) : IngestSpec :=
  { table := t, version := "1.0", path := path, domain := "nebula", size := sz,
    state := SpecState.NEW, mdate := mdate }

/-- The default process configuration (flag defaults; parallelism 4 as in
scenario S4). -/
def defaultConfig : IngestConfig :=
  { testLoaderName := "NebulaTest", blockMaxRows := 50000,
    hardwareConcurrency := 4, testTableName := "nebula.test" }

/-- An environment whose reader yields no rows. -/
def emptyEnv : IngestEnv :=
  { clock := 0, parseTime := fun _ _ => 0, readerRows := [], tmpFile := "/tmp/n0" }

/-- The ingestion test's spec (TestIngestion.cpp): loader "swap"
(lowercase), S3 source, csv format, path "nebula/v1.x", size 10. -/
def testIngestionSpec : IngestSpec :=
  mkIngestSpec (mkTable "test" "swap" "csv" DataSource.S3 (staticTimeSpec 0) 10)
    "nebula/v1.x" 10 0

/-- A Swap spec over S3 with unsupported format "orc" (scenario S5). -/
def orcSwapSpec : IngestSpec :=
  mkIngestSpec (mkTable "test" "Swap" "orc" DataSource.S3 (staticTimeSpec 0) 10)
    "nebula/v1.x" 10 0

/-- A Roll spec over S3 with unsupported format "orc". -/
def orcRollSpec : IngestSpec :=
  mkIngestSpec (mkTable "test" "Roll" "orc" DataSource.S3 (staticTimeSpec 0) 10)
    "nebula/v1.x" 10 0

/-- A Swap spec over the LOCAL filesystem source. -/
def localSwapSpec : IngestSpec :=
  mkIngestSpec (mkTable "test" "Swap" "csv" DataSource.LOCAL (staticTimeSpec 0) 10)
    "p" 1 0

/-- A Roll spec over the LOCAL filesystem source. -/
def localRollSpec : IngestSpec :=
  mkIngestSpec (mkTable "test" "Roll" "csv" DataSource.LOCAL (staticTimeSpec 0) 10)
    "p" 1 0

/-- Scenario S4's table routed to the synthetic test loader:
unix_time_value 0, max_hr 24. -/
def ntestSpec : IngestSpec :=
  mkIngestSpec (mkTable "test" "NebulaTest" "csv" DataSource.S3 (staticTimeSpec 0) 24)
    "p" 1 0

/-- Scenario: a Roll spec with STATIC time 1000 over csv. -/
def c5Spec : IngestSpec :=
  mkIngestSpec (mkTable "t5" "Roll" "csv" DataSource.S3 (staticTimeSpec 1000) 10) "p" 1 0

/-- Environment with a two-row source for the time-range witness. -/
def c5Env : IngestEnv :=
  { clock := 0, parseTime := fun _ _ => 0,
    readerRows := [constRow 5, constRow 9], tmpFile := "/tmp/n1" }

/-- The single block the pipeline emits on `c5Spec` over `c5Env`. -/
def c5Block : BatchBlock :=
  mkBlock "t5" "t5@p@1" 0 (1000, 1000)
    [RowWrapperWithTime (fun _ => 1000) (constRow 5),
     RowWrapperWithTime (fun _ => 1000) (constRow 9)]

/-- Configuration with block capacity zero (a legal flag value). -/
def zeroCapConfig : IngestConfig :=
  { testLoaderName := "NebulaTest", blockMaxRows := 0,
    hardwareConcurrency := 4, testTableName := "nebula.test" }

/-- Configuration with block capacity three (scenario S1). -/
def threeCapConfig : IngestConfig :=
  { testLoaderName := "NebulaTest", blockMaxRows := 3,
    hardwareConcurrency := 4, testTableName := "nebula.test" }

/-- A Roll spec with STATIC time 7 over csv, for the block-size claims. -/
def c6Spec : IngestSpec :=
  mkIngestSpec (mkTable "t6" "Roll" "csv" DataSource.S3 (staticTimeSpec 7) 10) "p" 1 0

/-- Environment with a one-row source. -/
def oneRowEnv : IngestEnv :=
  { clock := 0, parseTime := fun _ _ => 0, readerRows := [constRow 1],
    tmpFile := "/tmp/n2" }

/-- Environment with a four-row source (scenario S1's row count). -/
def fourRowEnv : IngestEnv :=
  { clock := 0, parseTime := fun _ _ => 0,
    readerRows := [constRow 1, constRow 2, constRow 3, constRow 4],
    tmpFile := "/tmp/n3" }

/-- A Swap spec over S3 with csv format and STATIC time 0. -/
def c3Spec : IngestSpec :=
  mkIngestSpec (mkTable "t3" "Swap" "csv" DataSource.S3 (staticTimeSpec 0) 10) "p" 1 0

/-- A block installed by an earlier run sharing `c3Spec`'s
(table name, spec id). -/
def c3Old : BatchBlock :=
  { signature :=
      { tableName := "t3", blockSeq := 0, timeMin := 11, timeMax := 22,
        specId := "t3@p@1" },
    batch := [] }

/-- Environment with a one-row source used by the Swap-replacement witness. -/
def c3RowEnv : IngestEnv :=
  { clock := 0, parseTime := fun _ _ => 0, readerRows := [constRow 3],
    tmpFile := "/tmp/n4" }

/-- The single block the pipeline emits on `c3Spec` over `c3RowEnv`. -/
def c3NewBlock : BatchBlock :=
  mkBlock "t3" "t3@p@1" 0 (0, 0) [RowWrapperWithTime (fun _ => 0) (constRow 3)]

/- Helper lemmas about Nat folds (used by the pipeline invariants). -/

theorem foldl_min_le_init (l : List Nat) (a : Nat) : l.foldl min a ≤ a := by
  induction l generalizing a with
  | nil => simp
  | cons x xs ih => exact le_trans (ih (min a x)) (min_le_left a x)

theorem foldl_min_le_of_mem {t : Nat} (l : List Nat) (a : Nat) (h : t ∈ l) :
    l.foldl min a ≤ t := by
  induction l generalizing a with
  | nil => cases h
  | cons x xs ih =>
    rcases List.mem_cons.mp h with rfl | h'
    · exact le_trans (foldl_min_le_init xs (min a t)) (min_le_right a t)
    · exact ih (min a x) h'

theorem le_foldl_max_init (l : List Nat) (a : Nat) : a ≤ l.foldl max a := by
  induction l generalizing a with
  | nil => simp
  | cons x xs ih => exact le_trans (le_max_left a x) (ih (max a x))

theorem le_foldl_max_of_mem {t : Nat} (l : List Nat) (a : Nat) (h : t ∈ l) :
    t ≤ l.foldl max a := by
  induction l generalizing a with
  | nil => cases h
  | cons x xs ih =>
    rcases List.mem_cons.mp h with rfl | h'
    · exact le_trans (le_max_right a t) (le_foldl_max_init xs (max a t))
    · exact ih (max a x) h'

theorem ite_lt_eq_min (t x : Nat) : (if t < x then t else x) = min x t := by
  rcases Nat.lt_or_ge t x with h | h
  · rw [if_pos h, min_eq_right (Nat.le_of_lt h)]
  · rw [if_neg (Nat.not_lt.mpr h), min_eq_left h]

theorem ite_gt_eq_max (t x : Nat) : (if t > x then t else x) = max x t := by
  rcases Nat.lt_or_ge x t with h | h
  · rw [if_pos h, max_eq_right (Nat.le_of_lt h)]
  · rw [if_neg (Nat.not_lt.mpr h), max_eq_left h]

/- Claim theorems. -/

/-- Claim C10: loader dispatch in work() compares the loader string
byte-for-byte: for every loader value not exactly equal to the configured
test loader name, "Swap" or "Roll", work() returns false and the
BlockManager is left unmodified. -/
theorem work_unknown_loader_rejected (spec : IngestSpec) (cfg : IngestConfig)
    (env : IngestEnv) (bm : BlockManager)
    (h1 : spec.table.loader ≠ cfg.testLoaderName)
    (h2 : spec.table.loader ≠ "Swap")
    (h3 : spec.table.loader ≠ "Roll") :
    spec.work cfg env bm = (false, bm) := by
  unfold IngestSpec.work
  simp [h1, h2, h3]

/-- Witness for C10 at the ingestion test's spec: loader "swap"
(lowercase, as used in TestIngestion.cpp) is rejected and the
BlockManager is untouched. -/
theorem work_unknown_loader_rejected_witness :
    testIngestionSpec.work defaultConfig emptyEnv [] = (false, []) :=
  work_unknown_loader_rejected testIngestionSpec defaultConfig emptyEnv []
    (by decide) (by decide) (by decide)

/-- Claim C7: the time function derived from the TimeSpec maps rows per
the dispatch table (STATIC to the constant unix_time_value, CURRENT to
the process clock, COLUMN to the parse of the row's string column under
the pattern, MACRO with pattern "date" to the constant mdate, MACRO with
any other pattern to the constant 0, and no function for PROVIDED), and
the row adapter returns exactly that value from readLong("_time_") while
isNull("_time_") is always false. -/
theorem timeFunc_matches_spec (ts : TimeSpec) (mdate : Nat) (env : IngestEnv)
    (row : RowData) :
    ((makeTimeFunc ts mdate env).map fun tf => tf row) =
      (match ts.type with
       | TimeType.STATIC => some ts.unixTimeValue
       | TimeType.CURRENT => some env.clock
       | TimeType.COLUMN => some (env.parseTime (row.readString ts.colName) ts.pattern)
       | TimeType.MACRO => some (if ts.pattern = "date" then mdate else 0)
       | TimeType.PROVIDED => none)
    ∧ ∀ tf : RowData → Nat,
        (RowWrapperWithTime tf row).readLong TIME_COLUMN = tf row
        ∧ (RowWrapperWithTime tf row).isNull TIME_COLUMN = false := by
  constructor
  · cases h : ts.type <;> simp only [makeTimeFunc, h, Option.map_some', Option.map_none']
    split <;> simp
  · intro tf
    constructor <;> simp [RowWrapperWithTime]

/-- Claim C9 (FlatBuffer modelled from the spec): for every sequence of
adds and every row, performing add(r) then rollback() returns the
FlatBuffer to the byte-exact state after the original sequence alone;
the intermediate add increments the row count by exactly one, and every
stored row reads back unchanged after the rollback. -/
theorem flatBuffer_rollback_of_add {ρ : Type} (serialize : ρ → List Nat)
    (adds : List ρ) (r : ρ) :
    (FlatBuffer.addRow serialize (FlatBuffer.runAdds serialize adds) r).rollback
        = FlatBuffer.runAdds serialize adds
    ∧ (FlatBuffer.addRow serialize (FlatBuffer.runAdds serialize adds) r).getRows
        = (FlatBuffer.runAdds serialize adds).getRows + 1
    ∧ ∀ i, ((FlatBuffer.addRow serialize (FlatBuffer.runAdds serialize adds) r).rollback).rowBytes i
        = (FlatBuffer.runAdds serialize adds).rowBytes i := by
  have hroll : ∀ fb : FlatBuffer,
      (FlatBuffer.addRow serialize fb r).rollback = fb := by
    intro fb
    unfold FlatBuffer.rollback FlatBuffer.addRow
    simp only [List.getLast?_concat]
    cases fb with
    | mk bytes offsets =>
      simp [List.take_left, List.dropLast_concat]
  refine ⟨hroll _, ?_, fun i => by rw [hroll]⟩
  simp [FlatBuffer.addRow, FlatBuffer.getRows]

/-- Counterexample to claim C1 as stated: a Swap spec over an S3 source
with format "orc" (neither "csv" nor "parquet") makes work() return
true — the claim predicts false.  (No blocks are installed, as the
second conjunct shows.) -/
theorem work_bad_format_counterexample :
    (orcSwapSpec.work defaultConfig emptyEnv []).1 = true
    ∧ (orcSwapSpec.work defaultConfig emptyEnv []).2 = [] := by
  exact ⟨rfl, rfl⟩

/-- Claim C1 amended: for every Swap or Roll spec over an S3 source whose
format is neither "csv" nor "parquet", or whose TimeSpec type is none of
STATIC/CURRENT/COLUMN/MACRO, work() returns TRUE while installing no
blocks: the BlockManager is returned unmodified (the configuration
failure is silent in the return value). -/
theorem work_bad_config_installs_nothing (spec : IngestSpec) (cfg : IngestConfig)
    (env : IngestEnv) (bm : BlockManager)
    (hloader : spec.table.loader = "Swap" ∨ spec.table.loader = "Roll")
    (htest : spec.table.loader ≠ cfg.testLoaderName)
    (hsrc : spec.table.source = DataSource.S3)
    (hbad : (spec.table.format ≠ "csv" ∧ spec.table.format ≠ "parquet")
          ∨ (spec.table.timeSpec.type ≠ TimeType.STATIC
             ∧ spec.table.timeSpec.type ≠ TimeType.CURRENT
             ∧ spec.table.timeSpec.type ≠ TimeType.COLUMN
             ∧ spec.table.timeSpec.type ≠ TimeType.MACRO)) :
    spec.work cfg env bm = (true, bm) := by
  have hempty : spec.ingest cfg env = [] := by
    unfold IngestSpec.ingest
    rcases hbad with ⟨hf1, hf2⟩ | ⟨h1, h2, h3, h4⟩
    · cases hmk : makeTimeFunc spec.table.timeSpec spec.mdate env with
      | none => rfl
      | some tf => simp [hf1, hf2]
    · have hprov : spec.table.timeSpec.type = TimeType.PROVIDED := by
        cases h : spec.table.timeSpec.type <;> simp_all
      simp [makeTimeFunc, hprov]
  rcases hloader with h | h <;>
    (rw [h] at htest;
     simp [IngestSpec.work, h, htest, IngestSpec.loadSwap, IngestSpec.loadRoll,
       IngestSpec.load, hsrc, hempty, BlockManager.add])

/-- Witness for the amended C1: a Roll spec over S3 with format "orc"
returns true and leaves the (empty) BlockManager empty. -/
theorem work_bad_config_installs_nothing_witness :
    orcRollSpec.work defaultConfig emptyEnv [] = (true, []) :=
  work_bad_config_installs_nothing orcRollSpec defaultConfig emptyEnv []
    (Or.inr rfl) (by decide) rfl (Or.inl (by decide))

/-- Counterexample to claim C4 as stated: a LOCAL-source Swap spec —
LOCAL is a filesystem source per DataSourceUtils::isFileSystem — is
failed by work() (returns false, BlockManager untouched), not ingested. -/
theorem work_local_source_counterexample :
    DataSourceUtils.isFileSystem localSwapSpec.table.source = true
    ∧ localSwapSpec.work defaultConfig emptyEnv [] = (false, []) := by
  exact ⟨rfl, rfl⟩

/-- Claim C4 amended: for every Swap or Roll spec, work() runs the
fetch+ingest pipeline (and returns true) if and only if the source is
S3; every other source — including the LOCAL filesystem source — makes
work() return false with the BlockManager unmodified. -/
theorem work_pipeline_iff_s3 (spec : IngestSpec) (cfg : IngestConfig)
    (env : IngestEnv) (bm : BlockManager)
    (hloader : spec.table.loader = "Swap" ∨ spec.table.loader = "Roll")
    (htest : spec.table.loader ≠ cfg.testLoaderName) :
    ((spec.work cfg env bm).1 = true ↔ spec.table.source = DataSource.S3)
    ∧ (spec.table.source ≠ DataSource.S3 → spec.work cfg env bm = (false, bm)) := by
  by_cases hs : spec.table.source = DataSource.S3 <;>
    rcases hloader with h | h <;>
      (rw [h] at htest;
       simp [IngestSpec.work, h, htest, IngestSpec.loadSwap, IngestSpec.loadRoll, hs])

/-- Witness for the amended C4: a LOCAL-source Roll spec is not run
(false, BlockManager unchanged), matching the iff at a non-S3 source. -/
theorem work_pipeline_iff_s3_witness :
    (((localRollSpec.work defaultConfig emptyEnv []).1 = true)
        ↔ localRollSpec.table.source = DataSource.S3)
    ∧ (localRollSpec.table.source ≠ DataSource.S3 →
        localRollSpec.work defaultConfig emptyEnv [] = (false, [])) :=
  work_pipeline_iff_s3 localRollSpec defaultConfig emptyEnv []
    (Or.inr rfl) (by decide)

/-- Claim C8 (code bug evaluated on the embedded code): at the ingestion
test's spec, the fetch stage passes the spec id "test@nebula/v1.x@10" —
not the path "nebula/v1.x" — as the object key to fs->copy; the
temporary file is unlinked unconditionally after ingestion. -/
theorem load_fetches_id_not_path :
    (testIngestionSpec.load defaultConfig emptyEnv).2.copiedKeys
        = ["test@nebula/v1.x@10"]
    ∧ testIngestionSpec.path = "nebula/v1.x"
    ∧ "test@nebula/v1.x@10" ≠ testIngestionSpec.path
    ∧ (testIngestionSpec.load defaultConfig emptyEnv).2.unlinked = [emptyEnv.tmpFile] := by
  exact ⟨rfl, rfl, by decide, rfl⟩

/-- Claim C2 (code bug evaluated on the embedded code): with
unix_time_value 0, max_hr 24 and hardware parallelism 4, the test loader
returns true but installs only TWO blocks, with sequence numbers 0 and
2, covering [0,21600) and [43200,64800) — not four contiguous blocks
0..3 — because the signature expression increments the loop counter a
second time. -/
theorem work_test_loader_skips_blocks :
    ntestSpec.work defaultConfig emptyEnv [] =
      (true,
        [{ signature :=
             { tableName := "nebula.test", blockSeq := 0, timeMin := 0,
               timeMax := 21600, specId := "test@p@1" },
           batch := [] },
         { signature :=
             { tableName := "nebula.test", blockSeq := 2, timeMin := 43200,
               timeMax := 64800, specId := "test@p@1" },
           batch := [] }]) := by
  rfl

theorem storedTimes_append (l1 l2 : List RowData) :
    storedTimes (l1 ++ l2) = storedTimes l1 ++ storedTimes l2 := by
  simp [storedTimes]

theorem storedTimes_wrapper (tf : RowData → Nat) (row : RowData) :
    storedTimes [RowWrapperWithTime tf row] = [tf row] := by
  simp [storedTimes, RowWrapperWithTime]

theorem wrapper_readLong_time (tf : RowData → Nat) (row : RowData) :
    (RowWrapperWithTime tf row).readLong TIME_COLUMN = tf row := by
  simp [RowWrapperWithTime]

theorem foldl_min_concat (l : List Nat) (a t : Nat) :
    (l ++ [t]).foldl min a = min (l.foldl min a) t := by
  simp [List.foldl_append]

theorem foldl_max_concat (l : List Nat) (a t : Nat) :
    (l ++ [t]).foldl max a = max (l.foldl max a) t := by
  simp [List.foldl_append]

theorem ingestStep_range_invariant (bRows : Nat) (timeFunc : RowData → Nat)
    (name specId : String) (st : LoopState) (row : RowData)
    (h1 : st.range.1 = (storedTimes st.batch).foldl min SIZE_MAX)
    (h2 : st.range.2 = (storedTimes st.batch).foldl max 0)
    (hb : ∀ b ∈ st.blocks,
        b.signature.timeMin = (storedTimes b.batch).foldl min SIZE_MAX
        ∧ b.signature.timeMax = (storedTimes b.batch).foldl max 0) :
    (ingestStep bRows timeFunc name specId st row).range.1
        = (storedTimes (ingestStep bRows timeFunc name specId st row).batch).foldl min SIZE_MAX
    ∧ (ingestStep bRows timeFunc name specId st row).range.2
        = (storedTimes (ingestStep bRows timeFunc name specId st row).batch).foldl max 0
    ∧ ∀ b ∈ (ingestStep bRows timeFunc name specId st row).blocks,
        b.signature.timeMin = (storedTimes b.batch).foldl min SIZE_MAX
        ∧ b.signature.timeMax = (storedTimes b.batch).foldl max 0 := by
  by_cases hfull : bRows ≤ st.batch.length
  · refine ⟨?_, ?_, ?_⟩
    · simp [ingestStep, hfull, storedTimes_append, storedTimes_wrapper,
        wrapper_readLong_time, foldl_min_concat, ite_lt_eq_min, storedTimes]
    · simp [ingestStep, hfull, storedTimes_append, storedTimes_wrapper,
        wrapper_readLong_time, foldl_max_concat, ite_gt_eq_max, storedTimes]
    · intro b hbmem
      simp only [ingestStep, hfull, if_true] at hbmem
      rcases List.mem_append.mp hbmem with hm | hm
      · exact hb b hm
      · rcases List.mem_singleton.mp hm with rfl
        exact ⟨h1, h2⟩
  · refine ⟨?_, ?_, ?_⟩
    · simp [ingestStep, hfull, storedTimes_append, storedTimes_wrapper,
        wrapper_readLong_time, foldl_min_concat, ite_lt_eq_min, h1]
    · simp [ingestStep, hfull, storedTimes_append, storedTimes_wrapper,
        wrapper_readLong_time, foldl_max_concat, ite_gt_eq_max, h2]
    · intro b hbmem
      simp only [ingestStep, hfull, if_false] at hbmem
      exact hb b hbmem

theorem ingestLoop_range_invariant (bRows : Nat) (timeFunc : RowData → Nat)
    (name specId : String) (rows : List RowData) (st : LoopState)
    (h1 : st.range.1 = (storedTimes st.batch).foldl min SIZE_MAX)
    (h2 : st.range.2 = (storedTimes st.batch).foldl max 0)
    (hb : ∀ b ∈ st.blocks,
        b.signature.timeMin = (storedTimes b.batch).foldl min SIZE_MAX
        ∧ b.signature.timeMax = (storedTimes b.batch).foldl max 0) :
    (ingestLoop bRows timeFunc name specId st rows).range.1
        = (storedTimes (ingestLoop bRows timeFunc name specId st rows).batch).foldl min SIZE_MAX
    ∧ (ingestLoop bRows timeFunc name specId st rows).range.2
        = (storedTimes (ingestLoop bRows timeFunc name specId st rows).batch).foldl max 0
    ∧ ∀ b ∈ (ingestLoop bRows timeFunc name specId st rows).blocks,
        b.signature.timeMin = (storedTimes b.batch).foldl min SIZE_MAX
        ∧ b.signature.timeMax = (storedTimes b.batch).foldl max 0 := by
  induction rows generalizing st with
  | nil => exact ⟨h1, h2, hb⟩
  | cons row rest ih =>
    have hstep := ingestStep_range_invariant bRows timeFunc name specId st row h1 h2 hb
    exact ih _ hstep.1 hstep.2.1 hstep.2.2

/-- Claim C5: for every block emitted by the ingest pipeline, the
signature's (time_min, time_max) bound the stored time of every row in
that block, and they are computed from exactly the rows written to that
block: time_min and time_max equal the min/max folds (from the C++
initial values SIZE_MAX and 0) over that block's stored times alone, the
running range being reset whenever a new batch is started. -/
theorem ingest_block_time_range (spec : IngestSpec) (cfg : IngestConfig)
    (env : IngestEnv) (b : BatchBlock) (hbm : b ∈ spec.ingest cfg env) :
    b.signature.timeMin = (storedTimes b.batch).foldl min SIZE_MAX
    ∧ b.signature.timeMax = (storedTimes b.batch).foldl max 0
    ∧ ∀ r ∈ b.batch,
        b.signature.timeMin ≤ r.readLong TIME_COLUMN
        ∧ r.readLong TIME_COLUMN ≤ b.signature.timeMax := by
  have hmain : b.signature.timeMin = (storedTimes b.batch).foldl min SIZE_MAX
      ∧ b.signature.timeMax = (storedTimes b.batch).foldl max 0 := by
    unfold IngestSpec.ingest at hbm
    split at hbm
    · cases hbm
    · rename_i tf hmk
      split at hbm
      · unfold finishLoop at hbm
        have hinv := ingestLoop_range_invariant cfg.blockMaxRows tf spec.table.name
          spec.id env.readerRows initLoopState (by simp [initLoopState, storedTimes])
          (by simp [initLoopState, storedTimes]) (by simp [initLoopState])
        split at hbm
        · rcases List.mem_append.mp hbm with hm | hm
          · exact hinv.2.2 b hm
          · rcases List.mem_singleton.mp hm with rfl
            exact ⟨hinv.1, hinv.2.1⟩
        · exact hinv.2.2 b hbm
      · cases hbm
  refine ⟨hmain.1, hmain.2, fun r hr => ?_⟩
  have hmem : r.readLong TIME_COLUMN ∈ storedTimes b.batch :=
    List.mem_map_of_mem (fun x => x.readLong TIME_COLUMN) hr
  exact ⟨hmain.1.trans_le (foldl_min_le_of_mem _ _ hmem),
    le_of_le_of_eq (le_foldl_max_of_mem _ _ hmem) hmain.2.symm⟩

/-- Witness for C5: on a two-row STATIC-time-1000 csv source, the single
emitted block carries (time_min, time_max) = (1000, 1000), bounding the
first stored row's time. -/
theorem ingest_block_time_range_witness :
    c5Block.signature.timeMin = (storedTimes c5Block.batch).foldl min SIZE_MAX
    ∧ c5Block.signature.timeMax = (storedTimes c5Block.batch).foldl max 0
    ∧ ∀ r ∈ c5Block.batch,
        c5Block.signature.timeMin ≤ r.readLong TIME_COLUMN
        ∧ r.readLong TIME_COLUMN ≤ c5Block.signature.timeMax :=
  ingest_block_time_range c5Spec defaultConfig c5Env c5Block
    (by rw [show c5Spec.ingest defaultConfig c5Env = [c5Block] from rfl]
        exact List.mem_singleton_self c5Block)

theorem ingestStep_size_invariant (bRows : Nat) (timeFunc : RowData → Nat)
    (name specId : String) (st : LoopState) (row : RowData)
    (hB : 1 ≤ bRows)
    (hbatch : st.batch.length ≤ bRows)
    (hblocks : ∀ b ∈ st.blocks, b.batch.length = bRows) :
    (ingestStep bRows timeFunc name specId st row).batch.length ≤ bRows
    ∧ ∀ b ∈ (ingestStep bRows timeFunc name specId st row).blocks,
        b.batch.length = bRows := by
  by_cases hfull : bRows ≤ st.batch.length
  · constructor
    · simpa [ingestStep, hfull] using hB
    · intro b hbmem
      simp only [ingestStep, hfull, if_true] at hbmem
      rcases List.mem_append.mp hbmem with hm | hm
      · exact hblocks b hm
      · rcases List.mem_singleton.mp hm with rfl
        exact le_antisymm hbatch hfull
  · constructor
    · have : st.batch.length < bRows := Nat.lt_of_not_le hfull
      simp only [ingestStep, hfull, if_false, List.length_append, List.length_singleton]
      omega
    · intro b hbmem
      simp only [ingestStep, hfull, if_false] at hbmem
      exact hblocks b hbmem

theorem ingestLoop_size_invariant (bRows : Nat) (timeFunc : RowData → Nat)
    (name specId : String) (rows : List RowData) (st : LoopState)
    (hB : 1 ≤ bRows)
    (hbatch : st.batch.length ≤ bRows)
    (hblocks : ∀ b ∈ st.blocks, b.batch.length = bRows) :
    (ingestLoop bRows timeFunc name specId st rows).batch.length ≤ bRows
    ∧ ∀ b ∈ (ingestLoop bRows timeFunc name specId st rows).blocks,
        b.batch.length = bRows := by
  induction rows generalizing st with
  | nil => exact ⟨hbatch, hblocks⟩
  | cons row rest ih =>
    have hstep := ingestStep_size_invariant bRows timeFunc name specId st row hB
      hbatch hblocks
    exact ih _ hstep.1 hstep.2

/-- Counterexample to claim C6 as stated: with capacity B = 0 — a legal
value of the block_max_rows knob, and the claim quantifies over every
capacity — a one-row csv source makes the pipeline emit a first block
holding ZERO rows (and a final block holding one), violating 1 ≤ n. -/
theorem ingest_zero_capacity_counterexample :
    ((c6Spec.ingest zeroCapConfig oneRowEnv).map fun b => b.batch.length) = [0, 1] := by
  rfl

/-- Claim C6 amended (a capacity hypothesis B ≥ 1 is required): for every
input row stream and capacity B = block_max_rows ≥ 1, every emitted block
has row count n with 1 ≤ n ≤ B, every block other than the final one is
emitted with exactly B rows, and a zero-row source yields an empty block
list. -/
theorem ingest_block_sizes (spec : IngestSpec) (cfg : IngestConfig) (env : IngestEnv)
    (hB : 1 ≤ cfg.blockMaxRows) :
    (∀ b ∈ spec.ingest cfg env,
        1 ≤ b.batch.length ∧ b.batch.length ≤ cfg.blockMaxRows)
    ∧ (∀ b ∈ (spec.ingest cfg env).dropLast, b.batch.length = cfg.blockMaxRows)
    ∧ (env.readerRows = [] → spec.ingest cfg env = []) := by
  refine ⟨?_, ?_, ?_⟩
  · intro b hbm
    unfold IngestSpec.ingest at hbm
    split at hbm
    · cases hbm
    · rename_i tf hmk
      split at hbm
      · unfold finishLoop at hbm
        have hinv := ingestLoop_size_invariant cfg.blockMaxRows tf spec.table.name
          spec.id env.readerRows initLoopState hB (by simp [initLoopState])
          (by simp [initLoopState])
        split at hbm
        · rename_i hlen
          rcases List.mem_append.mp hbm with hm | hm
          · have := hinv.2 b hm
            omega
          · rcases List.mem_singleton.mp hm with rfl
            exact ⟨hlen, hinv.1⟩
        · have := hinv.2 b hbm
          omega
      · cases hbm
  · intro b hbm
    unfold IngestSpec.ingest at hbm
    split at hbm
    · cases hbm
    · rename_i tf hmk
      split at hbm
      · unfold finishLoop at hbm
        have hinv := ingestLoop_size_invariant cfg.blockMaxRows tf spec.table.name
          spec.id env.readerRows initLoopState hB (by simp [initLoopState])
          (by simp [initLoopState])
        split at hbm
        · rw [List.dropLast_concat] at hbm
          exact hinv.2 b hbm
        · exact hinv.2 b ((List.dropLast_sublist _).subset hbm)
      · cases hbm
  · intro hrows
    unfold IngestSpec.ingest
    split
    · rfl
    · rw [hrows]
      split
      · rfl
      · rfl

/-- Witness for the amended C6 (scenario S1's shape): capacity 3 over a
four-row source yields blocks of sizes 3 and 1 — each block within
[1, 3], every non-final block exactly 3, and the empty-source clause
holds vacuously. -/
theorem ingest_block_sizes_witness :
    (∀ b ∈ c6Spec.ingest threeCapConfig fourRowEnv,
        1 ≤ b.batch.length ∧ b.batch.length ≤ threeCapConfig.blockMaxRows)
    ∧ (∀ b ∈ (c6Spec.ingest threeCapConfig fourRowEnv).dropLast,
        b.batch.length = threeCapConfig.blockMaxRows)
    ∧ (fourRowEnv.readerRows = [] → c6Spec.ingest threeCapConfig fourRowEnv = []) :=
  ingest_block_sizes c6Spec threeCapConfig fourRowEnv (by decide)

theorem ingestLoop_sig_invariant (bRows : Nat) (timeFunc : RowData → Nat)
    (name specId : String) (rows : List RowData) (st : LoopState)
    (h : ∀ b ∈ st.blocks,
        b.signature.tableName = name ∧ b.signature.specId = specId) :
    ∀ b ∈ (ingestLoop bRows timeFunc name specId st rows).blocks,
      b.signature.tableName = name ∧ b.signature.specId = specId := by
  induction rows generalizing st with
  | nil => exact h
  | cons row rest ih =>
    apply ih
    intro b hbmem
    by_cases hfull : bRows ≤ st.batch.length
    · simp only [ingestStep, hfull, if_true] at hbmem
      rcases List.mem_append.mp hbmem with hm | hm
      · exact h b hm
      · rcases List.mem_singleton.mp hm with rfl
        exact ⟨rfl, rfl⟩
    · simp only [ingestStep, hfull, if_false] at hbmem
      exact h b hbmem

theorem ingest_sig (spec : IngestSpec) (cfg : IngestConfig) (env : IngestEnv) :
    ∀ b ∈ spec.ingest cfg env,
      b.signature.tableName = spec.table.name ∧ b.signature.specId = spec.id := by
  intro b hbm
  unfold IngestSpec.ingest at hbm
  split at hbm
  · cases hbm
  · rename_i tf hmk
    split at hbm
    · unfold finishLoop at hbm
      have hinv := ingestLoop_sig_invariant cfg.blockMaxRows tf spec.table.name
        spec.id env.readerRows initLoopState (by simp [initLoopState])
      split at hbm
      · rcases List.mem_append.mp hbm with hm | hm
        · exact hinv b hm
        · rcases List.mem_singleton.mp hm with rfl
          exact ⟨rfl, rfl⟩
      · exact hinv b hbm
    · cases hbm

theorem sameSpecBlocks_remove_self (bm : BlockManager) (sig : BlockSignature)
    (name specId : String) (hn : sig.tableName = name) (hi : sig.specId = specId) :
    sameSpecBlocks (bm.removeSameSpec sig) name specId = [] := by
  subst hn hi
  unfold sameSpecBlocks BlockManager.removeSameSpec
  rw [List.filter_eq_nil_iff]
  intro b hb
  have hkeep := (List.mem_filter.mp hb).2
  simp only [Bool.not_eq_true', Bool.and_eq_false_iff] at hkeep
  simp only [Bool.and_eq_true, beq_iff_eq, not_and]
  intro h1 h2
  rcases hkeep with hk | hk
  · exact absurd h1 (by simpa using hk)
  · exact absurd h2 (by simpa using hk)

theorem sameSpecBlocks_remove_preserves_nil (bm : BlockManager) (sig : BlockSignature)
    (name specId : String) (h : sameSpecBlocks bm name specId = []) :
    sameSpecBlocks (bm.removeSameSpec sig) name specId = [] := by
  unfold sameSpecBlocks at h ⊢
  unfold BlockManager.removeSameSpec
  rw [List.filter_eq_nil_iff] at h ⊢
  intro b hb
  exact h b (List.mem_of_mem_filter hb)

theorem sameSpecBlocks_foldl_remove (blocks : List BatchBlock) (bm : BlockManager)
    (name specId : String) (h : sameSpecBlocks bm name specId = []) :
    sameSpecBlocks
        (blocks.foldl (fun m b => m.removeSameSpec b.signature) bm) name specId
      = [] := by
  induction blocks generalizing bm with
  | nil => exact h
  | cons x xs ih =>
    exact ih _ (sameSpecBlocks_remove_preserves_nil bm x.signature name specId h)

theorem sameSpecBlocks_self (blocks : List BatchBlock) (name specId : String)
    (h : ∀ b ∈ blocks,
        b.signature.tableName = name ∧ b.signature.specId = specId) :
    sameSpecBlocks blocks name specId = blocks := by
  unfold sameSpecBlocks
  rw [List.filter_eq_self]
  intro b hb
  simp [(h b hb).1, (h b hb).2]

/-- Counterexample to claim C3 as stated: a successful Swap work() whose
input file yields ZERO blocks leaves a previously installed same-spec
block in the BlockManager — the removal loop iterates over the produced
blocks, so an empty production removes nothing. -/
theorem swap_zero_blocks_counterexample :
    (c3Spec.work defaultConfig emptyEnv [c3Old]).1 = true
    ∧ c3Spec.ingest defaultConfig emptyEnv = []
    ∧ sameSpecBlocks (c3Spec.work defaultConfig emptyEnv [c3Old]).2 "t3" "t3@p@1"
        = [c3Old] := by
  exact ⟨rfl, rfl, rfl⟩

/-- Claim C3 amended: after every successful Swap work() (S3 source) whose
run emits at least one block, the blocks in the BlockManager whose
(table_name, spec_id) equal the spec's are exactly the blocks emitted by
this run, all previously installed same-spec blocks having been removed;
a run emitting zero blocks removes nothing and leaves prior same-spec
blocks in place. -/
theorem swap_replaces_same_spec (spec : IngestSpec) (cfg : IngestConfig)
    (env : IngestEnv) (bm : BlockManager)
    (htest : spec.table.loader ≠ cfg.testLoaderName)
    (hloader : spec.table.loader = "Swap")
    (hsrc : spec.table.source = DataSource.S3)
    (hne : spec.ingest cfg env ≠ []) :
    sameSpecBlocks (spec.work cfg env bm).2 spec.table.name spec.id
      = spec.ingest cfg env := by
  rw [hloader] at htest
  have hwork : (spec.work cfg env bm).2
      = BlockManager.add
          ((spec.ingest cfg env).foldl (fun m b => m.removeSameSpec b.signature) bm)
          (spec.ingest cfg env) := by
    simp [IngestSpec.work, hloader, htest, IngestSpec.loadSwap, hsrc, IngestSpec.load]
  rw [hwork]
  have hsigs := ingest_sig spec cfg env
  have happ : sameSpecBlocks
      (BlockManager.add
        ((spec.ingest cfg env).foldl (fun m b => m.removeSameSpec b.signature) bm)
        (spec.ingest cfg env)) spec.table.name spec.id
      = sameSpecBlocks
          ((spec.ingest cfg env).foldl (fun m b => m.removeSameSpec b.signature) bm)
          spec.table.name spec.id
        ++ sameSpecBlocks (spec.ingest cfg env) spec.table.name spec.id := by
    unfold sameSpecBlocks BlockManager.add
    exact List.filter_append _ _
  rw [happ, sameSpecBlocks_self (spec.ingest cfg env) spec.table.name spec.id hsigs]
  rcases hx : spec.ingest cfg env with _ | ⟨hd, tl⟩
  · exact absurd hx hne
  · have hhd := hsigs hd (hx ▸ List.mem_cons_self hd tl)
    have hfold : sameSpecBlocks
        ((hd :: tl).foldl (fun m b => m.removeSameSpec b.signature) bm)
        spec.table.name spec.id = [] :=
      sameSpecBlocks_foldl_remove tl (bm.removeSameSpec hd.signature)
        spec.table.name spec.id
        (sameSpecBlocks_remove_self bm hd.signature spec.table.name spec.id
          hhd.1 hhd.2)
    rw [hfold, List.nil_append]

/-- Witness for the amended C3: a one-row Swap run over a BlockManager
holding one stale same-spec block; afterwards the same-spec blocks are
exactly this run's single emitted block. -/
theorem swap_replaces_same_spec_witness :
    sameSpecBlocks (c3Spec.work defaultConfig c3RowEnv [c3Old]).2
        c3Spec.table.name c3Spec.id
      = c3Spec.ingest defaultConfig c3RowEnv :=
  swap_replaces_same_spec c3Spec defaultConfig c3RowEnv [c3Old]
    (by decide) rfl rfl
    (by rw [show c3Spec.ingest defaultConfig c3RowEnv = [c3NewBlock] from rfl]
        exact List.cons_ne_nil c3NewBlock [])
